import Mathlib

/-
Verification development for the incremental ingestion and checkpoint engine
of the SFTP monitoring application (src/incremental_updater.py, with table
declarations also referenced from src/app_collector.py).

Modelling conventions:
* SQLite tables are modelled as Lean lists of rows; `INSERT OR IGNORE` is an
  append guarded by a key-membership test, `INSERT OR REPLACE` removes the
  keyed row and appends the new one, and `ON CONFLICT DO UPDATE` is an upsert.
* The filesystem is abstracted: each artifact file is passed as an
  `Option` of its (already decoded) content, `none` modelling a missing file.
  The csv.DictReader decoding layer is abstracted by passing the ledger as a
  list of `HistoryRow`s (one per data row, header excluded); the received
  summary is passed as its list of lines.
* Wall-clock fields (`last_processed_date`, `updated_at`, `created_at`, the
  `metadata` table writes) are omitted: no claim mentions them.
* Python string operations (`lower`, `strip`, `in`, `replace`, `split`,
  `startswith`, `rstrip`) are re-implemented over `List Char`; `lower` is
  modelled on the ASCII range, `float()` / `int()` literal parsing is modelled
  for decimal forms (optional sign, digits, optional fractional part) without
  exponents; `int(...)` truncation is toward zero, as in Python.
-/

namespace SftpMonitor

/-- ASCII lowercase conversion of one character, modelling Python str.lower
on the ASCII range. -/
def pyLowerChar (c : Char) : Char :=
  if 'A' ≤ c ∧ c ≤ 'Z' then Char.ofNat (c.toNat + 32) else c

/-- Python whitespace characters stripped by str.strip(). -/
def isPySpace (c : Char) : Bool :=
  c == ' ' || c == '\t' || c == '\n' || c == '\r' || c == '\x0B' || c == '\x0C'

/-- Strip leading and trailing whitespace from a character list
(Python str.strip()). -/
def lcStrip (l : List Char) : List Char :=
  ((l.dropWhile isPySpace).reverse.dropWhile isPySpace).reverse

/-- Does the first list start with the second (Python str.startswith)? -/
def lcStartsWith : List Char → List Char → Bool
  | _, [] => true
  | [], _ :: _ => false
  | a :: as, b :: bs => a == b && lcStartsWith as bs

/-- Substring containment test (Python `sub in s`). -/
def lcContains : List Char → List Char → Bool
  | [], pat => lcStartsWith [] pat
  | a :: t, pat => lcStartsWith (a :: t) pat || lcContains t pat

/-- Split a character list on every non-overlapping occurrence of a
non-empty separator, scanning left to right (Python str.split(sep)); the
first argument is recursion fuel, which is adequate at the list's length
because every step consumes at least one character. -/
def lcSplitGo : Nat → List Char → List Char → List (List Char)
  | _, [], _ => [[]]
  | 0, h, _ => [h]
  | fuel + 1, a :: t, pat =>
    if !pat.isEmpty && lcStartsWith (a :: t) pat then
      [] :: lcSplitGo fuel ((a :: t).drop pat.length) pat
    else
      match lcSplitGo fuel t pat with
      | [] => [[a]]
      | x :: xs => (a :: x) :: xs

/-- Python s.split(sep) for a non-empty separator. -/
def pySplit (s sep : String) : List String :=
  (lcSplitGo s.data.length s.data sep.data).map String.mk

/-- Python s.replace(sub, ""): remove every non-overlapping occurrence,
realised as split-then-concatenate. -/
def pyRemove (s sub : String) : String :=
  String.mk ((lcSplitGo s.data.length s.data sub.data).foldr (fun a b => a ++ b) [])

/-- Python `sub in s`. -/
def pyContains (s sub : String) : Bool := lcContains s.data sub.data

/-- Python s.startswith(p). -/
def pyStartsWith (s p : String) : Bool := lcStartsWith s.data p.data

/-- Python s.strip(). -/
def pyStrip (s : String) : String := String.mk (lcStrip s.data)

/-- Python s.lower() (ASCII range). -/
def pyLower (s : String) : String := String.mk (s.data.map pyLowerChar)

/-- Python s[n:]. -/
def pyDrop (s : String) (n : Nat) : String := String.mk (s.data.drop n)

/-- Python s.rstrip(")"): remove all trailing right-parenthesis characters. -/
def pyRStripParen (s : String) : String :=
  String.mk ((s.data.reverse.dropWhile (fun c => c == ')')).reverse)

/-- Decimal digit test. -/
def isDigitCh (c : Char) : Bool := decide ('0' ≤ c) && decide (c ≤ '9')

/-- Value of a list of decimal digits. -/
def digitsToNat (l : List Char) : Nat := l.foldl (fun a c => a * 10 + (c.toNat - 48)) 0

/-- Python float(x) on decimal literals (optional sign, digits, optional
'.' and fractional digits), returned exactly as a scaled integer
(mantissa, k) denoting mantissa / 10 ^ k; `none` models the ValueError
raised on any other input.  Exponent/inf/nan float syntax is not modelled;
no input exercised by the program or the spec uses it. -/
def parseFloatSc (l : List Char) : Option (Int × Nat) :=
  let sgnBody : Int × List Char :=
    match l with
    | '+' :: t => (1, t)
    | '-' :: t => (-1, t)
    | _ => (1, l)
  let sgn := sgnBody.1
  let body := sgnBody.2
  let ip := body.takeWhile (fun c => c != '.')
  let rest := body.drop ip.length
  match rest with
  | [] =>
    if !ip.isEmpty && ip.all isDigitCh then some (sgn * (digitsToNat ip : Int), 0)
    else none
  | _ :: fp =>
    if fp.all isDigitCh && ip.all isDigitCh && (!ip.isEmpty || !fp.isEmpty) then
      some (sgn * ((digitsToNat ip * 10 ^ fp.length + digitsToNat fp : Nat) : Int), fp.length)
    else none

/-- Python int(x) on integer literals (optional sign, digits); `none`
models the ValueError raised on any other input. -/
def parseIntP (l : List Char) : Option Int :=
  match l with
  | '+' :: t => if !t.isEmpty && t.all isDigitCh then some ((digitsToNat t : Nat) : Int) else none
  | '-' :: t => if !t.isEmpty && t.all isDigitCh then some (-((digitsToNat t : Nat) : Int)) else none
  | t => if !t.isEmpty && t.all isDigitCh then some ((digitsToNat t : Nat) : Int) else none

/-- Python int(float(x) * c) for a scaled-integer float value (mant, k)
and a positive constant c: exact multiplication then truncation toward
zero, as Python's int() truncates.  (CPython computes this in binary
floating point; on every value the program or spec exercises — such as
1.5 KB — the two agree exactly.) -/
def scaledTrunc (mant : Int) (k : Nat) (c : Nat) : Int :=
  let n := mant * (c : Int)
  if n < 0 then -((n.natAbs / 10 ^ k : Nat) : Int) else ((n.natAbs / 10 ^ k : Nat) : Int)

/-- Body of the try-block of IncrementalUpdater.parse_file_size: unit
branches tried in order kb, mb, gb, bytes, bare number; `none` models the
exception caught by the bare `except` (which makes the function return 0). -/
def parse_size_branches (s : String) : Option Int :=
  let t := pyStrip (pyLower s)
  if pyContains t "kb" then
    (parseFloatSc (pyStrip (pyRemove t "kb")).data).map (fun q => scaledTrunc q.1 q.2 1024)
  else if pyContains t "mb" then
    (parseFloatSc (pyStrip (pyRemove t "mb")).data).map
      (fun q => scaledTrunc q.1 q.2 (1024 * 1024))
  else if pyContains t "gb" then
    (parseFloatSc (pyStrip (pyRemove t "gb")).data).map
      (fun q => scaledTrunc q.1 q.2 (1024 * 1024 * 1024))
  else if pyContains t "bytes" then
    parseIntP (pyStrip (pyRemove t "bytes")).data
  else
    (parseFloatSc t.data).map (fun q => scaledTrunc q.1 q.2 1)

/-- IncrementalUpdater.parse_file_size: empty (falsy) input returns 0
immediately; any parse failure in the branches returns 0 via the bare
`except` handler. -/
def parse_file_size (s : String) : Int :=
  if s = "" then 0 else (parse_size_branches s).getD 0

/-- Row of the file_exchanges table (src/incremental_updater.py lines 29-41);
the id / created_at bookkeeping columns are omitted. -/
structure ExchangeRecord where
  server_name : String
  timestamp : String
  hostname : String
  action : String
  target_servers : String
  filename : String
  status : String
  file_size : Int
deriving DecidableEq

/-- Row of the received_files table (lines 43-52); note the file_size
column is TEXT and the code stores the raw size string in it. -/
structure ReceivedFileRecord where
  server_name : String
  filename : String
  source_server : String
  received_date : String
  file_size : String
deriving DecidableEq

/-- Row of the file_checkpoints table (lines 54-62); the wall-clock columns
last_processed_date / updated_at are omitted. -/
structure Checkpoint where
  server_name : String
  last_history_line : Nat
  last_received_count : Nat
  total_processed_exchanges : Nat
  total_processed_received : Nat
deriving DecidableEq

/-- Row of the daily_activity table (lines 64-72). -/
structure DailyRow where
  date : String
  server_name : String
  files_sent : Int
  files_received : Int
  total_size_sent : Int
  total_size_received : Int
deriving DecidableEq

/-- Row of the servers table (declared in src/app_collector.py init_db). -/
structure ServerRow where
  name : String
  ip : String
  sent : Int
  received : Int
  last_update : Option String
deriving DecidableEq

/-- The SQLite database state restricted to the tables the ingestion engine
touches. -/
structure DB where
  file_exchanges : List ExchangeRecord
  received_files : List ReceivedFileRecord
  file_checkpoints : List Checkpoint
  daily_activity : List DailyRow
  servers : List ServerRow
deriving DecidableEq

/-- IncrementalUpdater.init_incremental_tables (lines 15-75): the method
first executes DROP TABLE IF EXISTS for file_exchanges, file_checkpoints,
received_files and daily_activity, then recreates the four tables empty
(CREATE TABLE IF NOT EXISTS); every pre-existing row of those four tables
is therefore deleted.  The servers table is untouched.  This also models
constructing an IncrementalUpdater, whose constructor calls this method. -/
def init_incremental_tables (db : DB) : DB :=
  { db with file_exchanges := [], received_files := [], file_checkpoints := [],
            daily_activity := [] }

/-- Zero-valued checkpoint returned when no row exists for the server. -/
def defaultCheckpoint (server : String) : Checkpoint :=
  ⟨server, 0, 0, 0, 0⟩

/-- IncrementalUpdater.get_checkpoint (lines 77-99). -/
def get_checkpoint (db : DB) (server : String) : Checkpoint :=
  (db.file_checkpoints.find? (fun c => c.server_name == server)).getD
    (defaultCheckpoint server)

/-- IncrementalUpdater.update_checkpoint (lines 101-114): INSERT OR REPLACE
keyed on server_name, modelled as removing any row with that key and
appending the replacement. -/
def update_checkpoint (db : DB) (server : String)
    (historyLines receivedCount totalEx totalRc : Nat) : DB :=
  { db with file_checkpoints :=
      db.file_checkpoints.filter (fun c => c.server_name != server) ++
        [⟨server, historyLines, receivedCount, totalEx, totalRc⟩] }

/-- The UNIQUE(server_name, timestamp, filename, action) key of
file_exchanges. -/
def exKey (r : ExchangeRecord) : String × String × String × String :=
  (r.server_name, r.timestamp, r.filename, r.action)

/-- INSERT OR IGNORE into file_exchanges: append unless the unique key is
already present.  Note this never raises IntegrityError. -/
def insertExchange (l : List ExchangeRecord) (r : ExchangeRecord) : List ExchangeRecord :=
  if l.any (fun x => exKey x == exKey r) then l else l ++ [r]

/-- The UNIQUE(server_name, filename, received_date) key of received_files. -/
def rcKey (r : ReceivedFileRecord) : String × String × String :=
  (r.server_name, r.filename, r.received_date)

/-- INSERT OR IGNORE into received_files. -/
def insertReceived (l : List ReceivedFileRecord) (r : ReceivedFileRecord) :
    List ReceivedFileRecord :=
  if l.any (fun x => rcKey x == rcKey r) then l else l ++ [r]

/-- IncrementalUpdater.update_daily_activity (lines 294-314): an upsert on
(date, server_name) bumping the sent or received counter and byte total; any
other action value falls through the if/elif and changes nothing (and the
surrounding try/except means the method never raises). -/
def update_daily_activity (da : List DailyRow) (date server action : String)
    (file_size : Int) : List DailyRow :=
  if action = "sent" then
    if da.any (fun r => r.date == date && r.server_name == server) then
      da.map (fun r =>
        if r.date == date && r.server_name == server then
          { r with files_sent := r.files_sent + 1,
                   total_size_sent := r.total_size_sent + file_size }
        else r)
    else da ++ [⟨date, server, 1, 0, file_size, 0⟩]
  else if action = "received" then
    if da.any (fun r => r.date == date && r.server_name == server) then
      da.map (fun r =>
        if r.date == date && r.server_name == server then
          { r with files_received := r.files_received + 1,
                   total_size_received := r.total_size_received + file_size }
        else r)
    else da ++ [⟨date, server, 0, 1, 0, file_size⟩]
  else da

/-- Python s.split(' ')[0]: the part of s before its first space. -/
def firstField (s : String) : String := (pySplit s " ").headD ""

/-- One data row of the ledger history.csv as decoded by csv.DictReader
(header row excluded); the column names are those read by
process_history_file_incremental. -/
structure HistoryRow where
  timestamp : String
  hostname : String
  action : String
  target_servers : String
  file : String
  status : String
  size : String
deriving DecidableEq

/-- The ExchangeRecord built from one ledger row (lines 161-174). -/
def mkExchangeRec (server : String) (r : HistoryRow) : ExchangeRecord :=
  ⟨server, r.timestamp, r.hostname, r.action, r.target_servers, r.file, r.status,
    parse_file_size r.size⟩

/-- The row loop of process_history_file_incremental (lines 155-184): a
1-based row counter is incremented for every row; rows at positions ≤ the
checkpoint are skipped; for the rest the record is INSERT OR IGNOREd, the
new-entry counter is incremented unconditionally (OR IGNORE never raises, so
the except-IntegrityError branch is dead), and if timestamp is nonempty and
action is sent the daily aggregate is bumped.  Returns (new_entries,
final row counter, database). -/
def procHistRows (server : String) (lastLine : Nat) :
    List HistoryRow → Nat → DB → Nat × Nat × DB
  | [], cur, db => (0, cur, db)
  | r :: rs, cur, db =>
    if cur + 1 ≤ lastLine then procHistRows server lastLine rs (cur + 1) db
    else
      let newRec := mkExchangeRec server r
      let db1 := { db with file_exchanges := insertExchange db.file_exchanges newRec }
      let da2 :=
        update_daily_activity db1.daily_activity (firstField r.timestamp) server
          "sent" newRec.file_size
      let db2 :=
        if r.timestamp ≠ "" ∧ r.action = "sent" then { db1 with daily_activity := da2 }
        else db1
      let res := procHistRows server lastLine rs (cur + 1) db2
      (res.1 + 1, res.2.1, res.2.2)

/-- IncrementalUpdater.process_history_file_incremental (lines 137-194):
a missing file returns (0, 0) with a warning; otherwise the row loop runs
from the checkpoint's last_history_line. -/
def process_history_file_incremental (server : String)
    (histFile : Option (List HistoryRow)) (db : DB) : Nat × Nat × DB :=
  match histFile with
  | none => (0, 0, db)
  | some rows =>
    procHistRows server (get_checkpoint db server).last_history_line rows 0 db

/-- Parse of one entry line of the Files Received section (lines 227-274 of
src/incremental_updater.py), for a stripped line known to start with
two characters.  Steps, exactly as the source performs them on line[2:]:
split on the literal string space-open-paren Size-colon-space; the part
before the first occurrence, stripped, is the filename; if the filename
starts with from_ubuntu-server- the source server is rebuilt as
ubuntu-server- followed by the THIRD underscore-separated piece of the
filename (index 2 of filename.split, which for the documented filename shape
is the date stamp, not the server number); if a second split part exists and
contains bytes-comma-Date-colon, the size string is rebuilt from the part
before that marker, and the date is the text after the first Date-colon-space
marker, stripped and with trailing right parens removed, truncated before the
first dot of its second space-separated field.  Indexing [1] after splitting
on Date-colon-space raises IndexError when that marker is absent; `none`
models that raise (caught by the entry-level except, which logs and skips).
Returns the record to insert together with the normalized byte size used for
the daily aggregate. -/
def parseRecvEntry (server line : String) : Option (ReceivedFileRecord × Int) :=
  let parts := pySplit (pyDrop line 2) " (Size: "
  let filename := pyStrip (parts.headD "")
  let source_server :=
    if pyStartsWith filename "from_ubuntu-server-" && pyContains filename "_" then
      match (pySplit filename "_").get? 2 with
      | some piece => "ubuntu-server-" ++ piece
      | none => "unknown"
    else "unknown"
  match parts.get? 1 with
  | none =>
    some (⟨server, filename, source_server, "", ""⟩, parse_file_size "")
  | some size_and_date =>
    if pyContains size_and_date "bytes, Date:" then
      let size_part := pyStrip ((pySplit size_and_date " bytes, Date:").headD "")
      let file_size_str := size_part ++ " bytes"
      match (pySplit size_and_date "Date: ").get? 1 with
      | none => none
      | some rawDate =>
        let date_part := pyRStripParen (pyStrip rawDate)
        let received_date :=
          if pyContains date_part " " then
            (pySplit date_part " ").headD "" ++ " " ++
              (pySplit (((pySplit date_part " ").get? 1).getD "") ".").headD ""
          else ""
        some (⟨server, filename, source_server, received_date, file_size_str⟩,
          parse_file_size file_size_str)
    else
      some (⟨server, filename, source_server, "", ""⟩, parse_file_size "")

/-- State of the line scan of process_received_summary_incremental. -/
structure ScanState where
  inSection : Bool
  count : Nat
  newFiles : Nat
  db : DB
deriving DecidableEq

/-- One line of the scan loop (lines 214-282): a line containing
Files Received: (re)enters the section; inside the section a line starting
with dash-space is an entry — the entry counter always advances, entries at
positions ≤ the checkpoint are skipped, a failed parse is logged and skipped,
and a successful parse INSERT OR IGNOREs the record, increments the new-file
counter unconditionally, and bumps the received daily aggregate when a
received date was recovered; a line starting with Total Files: leaves the
section. -/
def scanStep (server : String) (lastCount : Nat) (st : ScanState) (rawLine : String) :
    ScanState :=
  let line := pyStrip rawLine
  if pyContains line "Files Received:" then
    { st with inSection := true }
  else if st.inSection && pyStartsWith line "- " then
    let c := st.count + 1
    if c ≤ lastCount then { st with count := c }
    else
      match parseRecvEntry server line with
      | none => { st with count := c }
      | some pr =>
        let db1 := { st.db with received_files := insertReceived st.db.received_files pr.1 }
        let da2 :=
          update_daily_activity db1.daily_activity (firstField pr.1.received_date) server
            "received" pr.2
        let db2 := if pr.1.received_date ≠ "" then { db1 with daily_activity := da2 } else db1
        { inSection := st.inSection, count := c, newFiles := st.newFiles + 1, db := db2 }
  else if st.inSection && pyStartsWith line "Total Files:" then
    { st with inSection := false }
  else st

/-- The scan loop folded over the lines of the summary file. -/
def scanLines (server : String) (lastCount : Nat) : List String → ScanState → ScanState
  | [], st => st
  | l :: ls, st => scanLines server lastCount ls (scanStep server lastCount st l)

/-- IncrementalUpdater.process_received_summary_incremental (lines 196-292):
a missing file returns (0, 0); otherwise the scan runs from the checkpoint's
last_received_count and returns (new_files, final entry counter, database). -/
def process_received_summary_incremental (server : String)
    (summFile : Option (List String)) (db : DB) : Nat × Nat × DB :=
  match summFile with
  | none => (0, 0, db)
  | some lines =>
    let st := scanLines server (get_checkpoint db server).last_received_count lines
      ⟨false, 0, 0, db⟩
    (st.newFiles, st.count, st.db)

/-- The hardcoded server_ips table of update_server_totals (lines 365-369). -/
def server_ip (name : String) : String :=
  if name = "ubuntu-server-1" then "192.168.56.101"
  else if name = "ubuntu-server-2" then "192.168.56.102"
  else if name = "ubuntu-server-3" then "192.168.56.103"
  else "Unknown"

/-- Lexicographic comparison of character lists, modelling SQLite's memcmp
text ordering used by ORDER BY timestamp (the artifacts are ASCII). -/
def lcLt : List Char → List Char → Bool
  | [], [] => false
  | [], _ :: _ => true
  | _ :: _, [] => false
  | a :: as, b :: bs => decide (a < b) || (a == b && lcLt as bs)

/-- The SELECT timestamp ... ORDER BY timestamp DESC LIMIT 1 query:
the maximal timestamp among the server's exchange records, if any. -/
def latestTimestamp (l : List ExchangeRecord) (server : String) : Option String :=
  (l.filter (fun r => r.server_name == server)).foldl
    (fun acc r =>
      match acc with
      | none => some r.timestamp
      | some t => some (if lcLt t.data r.timestamp.data then r.timestamp else t))
    none

/-- IncrementalUpdater.update_server_totals (lines 344-380): full
recomputation of the server's sent/received counts and latest exchange
timestamp from the record store, then INSERT OR REPLACE into servers. -/
def update_server_totals (db : DB) (server : String) : DB :=
  let sent_count :=
    (db.file_exchanges.filter (fun r => r.server_name == server && r.action == "sent")).length
  let received_count :=
    (db.received_files.filter (fun r => r.server_name == server)).length
  let last_exchange := latestTimestamp db.file_exchanges server
  { db with servers :=
      db.servers.filter (fun r => r.name != server) ++
        [⟨server, server_ip server, (sent_count : Int), (received_count : Int),
          last_exchange⟩] }

/-- Per-server result dict of incremental_update_server. -/
structure ServerResult where
  new_exchanges : Nat
  new_received : Nat
  total_exchanges : Nat
  total_received : Nat
deriving DecidableEq

/-- IncrementalUpdater.incremental_update_server (lines 316-342).  The
filesystem is abstracted: dirOk models the existence of the server's logs
directory, histFile / summFile the existence and content of history.csv and
received_summary.txt.  When the directory is missing the method returns a
zero result without touching the database; otherwise it processes both
artifacts, re-reads the checkpoint, adds the new counts to the cumulative
totals, writes the checkpoint back, and recomputes the server totals. -/
def incremental_update_server (dirOk : Bool) (histFile : Option (List HistoryRow))
    (summFile : Option (List String)) (server : String) (db : DB) : ServerResult × DB :=
  if !dirOk then (⟨0, 0, 0, 0⟩, db)
  else
    let hres := process_history_file_incremental server histFile db
    let sres := process_received_summary_incremental server summFile hres.2.2
    let cp := get_checkpoint sres.2.2 server
    let totalEx := cp.total_processed_exchanges + hres.1
    let totalRc := cp.total_processed_received + sres.1
    let db3 := update_checkpoint sres.2.2 server hres.2.1 sres.2.1 totalEx totalRc
    let db4 := update_server_totals db3 server
    (⟨hres.1, sres.1, totalEx, totalRc⟩, db4)

/-- The artifacts available for one host during a cycle. -/
structure HostEnv where
  dirOk : Bool
  hist : Option (List HistoryRow)
  summ : Option (List String)

/-- The hardcoded host list of incremental_update_all (line 384). -/
def serverNames : List String :=
  ["ubuntu-server-1", "ubuntu-server-2", "ubuntu-server-3"]

/-- Aggregate totals returned by incremental_update_all. -/
structure Totals where
  new_exchanges : Nat
  new_received : Nat
  total_historical : Nat
deriving DecidableEq

/-- One iteration of the orchestrator loop (lines 389-399) in the pure
model, where the per-server pipeline cannot raise. -/
def cycleStep (env : String → HostEnv) (acc : Totals × DB) (server : String) :
    Totals × DB :=
  let e := env server
  let r := incremental_update_server e.dirOk e.hist e.summ server acc.2
  (⟨acc.1.new_exchanges + r.1.new_exchanges,
    acc.1.new_received + r.1.new_received,
    acc.1.total_historical + (r.1.total_exchanges + r.1.total_received)⟩, r.2)

/-- Orchestrator loop folded over a host list. -/
def cycleFold (env : String → HostEnv) (hosts : List String) (acc : Totals × DB) :
    Totals × DB :=
  hosts.foldl (cycleStep env) acc

/-- IncrementalUpdater.incremental_update_all (lines 382-412) in the pure
model: fold the per-server update over the three hardcoded hosts starting
from zero totals.  (The metadata timestamp writes are wall-clock bookkeeping
and are omitted.) -/
def incremental_update_all (env : String → HostEnv) (db : DB) : Totals × DB :=
  cycleFold env serverNames (⟨0, 0, 0⟩, db)

/-- The orchestrator's error-handling skeleton (lines 389-399): each host's
pipeline is run inside try/except — a raising host is logged and skipped,
and every remaining host is still processed.  The per-host pipeline is
abstracted as an Except-valued function because the real one can raise I/O
errors that live outside the pure model. -/
def catchStep (run : String → Except String ServerResult) (acc : Totals) (s : String) :
    Totals :=
  match run s with
  | Except.ok r =>
    ⟨acc.new_exchanges + r.new_exchanges, acc.new_received + r.new_received,
      acc.total_historical + (r.total_exchanges + r.total_received)⟩
  | Except.error _ => acc

def incremental_update_all_catch (run : String → Except String ServerResult) : Totals :=
  serverNames.foldl (catchStep run) ⟨0, 0, 0⟩

/-- Number of ledger rows in a history artifact (0 when absent): the value
the row counter reaches after a full pass. -/
def envHistCount (e : Option (List HistoryRow)) : Nat :=
  match e with
  | none => 0
  | some rows => rows.length

/-- Number of entry lines the summary scan counts, replayed independently of
any database state: a pure function of the lines and the in-section flag. -/
def countEntriesFrom : Bool → List String → Nat
  | _, [] => 0
  | inS, l :: ls =>
    let line := pyStrip l
    if pyContains line "Files Received:" then countEntriesFrom true ls
    else if inS && pyStartsWith line "- " then 1 + countEntriesFrom true ls
    else if inS && pyStartsWith line "Total Files:" then countEntriesFrom false ls
    else countEntriesFrom inS ls

/-- Number of entry lines in a summary artifact (0 when absent). -/
def envEntryCount (e : Option (List String)) : Nat :=
  match e with
  | none => 0
  | some ls => countEntriesFrom false ls

/-- A host's checkpoint counters agree with the counts derived from its
artifact files (trivially satisfied for a host whose logs directory is
missing, which never writes its checkpoint). -/
def cpSynced (env : String → HostEnv) (db : DB) (s : String) : Prop :=
  (env s).dirOk = true →
    (get_checkpoint db s).last_history_line = envHistCount (env s).hist ∧
    (get_checkpoint db s).last_received_count = envEntryCount (env s).summ

/-! Concrete fixtures used by the counterexamples and witnesses below. -/

/-- A database with all tables empty. -/
def emptyDB : DB := ⟨[], [], [], [], []⟩

/-- An exchange record as produced from the spec's §8 ledger scenario row. -/
def recA : ExchangeRecord :=
  ⟨"ubuntu-server-1", "2025-05-14 01:00:00", "ubuntu-server-1", "sent",
    "ubuntu-server-2", "report.txt", "success", 2048⟩

/-- A received-file record for a populated store. -/
def recvA : ReceivedFileRecord :=
  ⟨"ubuntu-server-1", "from_ubuntu-server-2_20250514_010156.txt",
    "ubuntu-server-20250514", "2025-05-14 01:01:57", "931 bytes"⟩

/-- A populated database: one exchange record, one received file, a
checkpoint at (5 ledger lines, 3 summary entries), one daily row. -/
def popDB : DB :=
  ⟨[recA], [recvA], [⟨"ubuntu-server-1", 5, 3, 5, 3⟩],
    [⟨"2025-05-14", "ubuntu-server-1", 1, 0, 2048, 0⟩], []⟩

/-- A ledger row whose uniqueness key (server, timestamp, filename, action)
collides with recA when ingested for ubuntu-server-1. -/
def dupRow : HistoryRow :=
  ⟨"2025-05-14 01:00:00", "ubuntu-server-1", "sent", "ubuntu-server-2",
    "report.txt", "success", "2 KB"⟩

/-- A database holding only recA, with no checkpoint row. -/
def dbDup : DB := ⟨[recA], [], [], [], []⟩

/-- The received-summary entry line of the spec's §8 scenario. -/
def c3line : String :=
  "- from_ubuntu-server-2_20250514_010156.txt (Size: 931 bytes, Date: 2025-05-14 01:01:57.15534749Z +0000 UTC)"

/-- A fresh ledger row (key distinct from everything in emptyDB). -/
def freshRow : HistoryRow :=
  ⟨"2025-05-14 02:00:00", "ubuntu-server-1", "sent", "ubuntu-server-3",
    "data.bin", "success", "1.5 KB"⟩

/-! Helper lemmas about the store operations. -/

theorem get_checkpoint_update_self (db : DB) (s : String) (h r te tr : Nat) :
    get_checkpoint (update_checkpoint db s h r te tr) s = ⟨s, h, r, te, tr⟩ := by
  unfold get_checkpoint update_checkpoint
  simp only
  have key : ∀ l : List Checkpoint,
      List.find? (fun c => c.server_name == s)
        (l.filter (fun c => c.server_name != s) ++ [⟨s, h, r, te, tr⟩]) =
        some ⟨s, h, r, te, tr⟩ := by
    intro l
    induction l with
    | nil => simp [List.find?]
    | cons a t ih =>
      by_cases ha : a.server_name = s
      · simp [List.filter_cons, ha, ih]
      · simp [List.filter_cons, ha, List.find?, ih]
  rw [key]
  rfl

theorem get_checkpoint_update_other (db : DB) (s s' : String) (hne : s' ≠ s)
    (h r te tr : Nat) :
    get_checkpoint (update_checkpoint db s h r te tr) s' = get_checkpoint db s' := by
  unfold get_checkpoint update_checkpoint
  simp only
  have hss : (s == s') = false := by
    simp only [beq_eq_false_iff_ne, ne_eq]
    intro hh
    exact hne hh.symm
  have key : ∀ l : List Checkpoint,
      List.find? (fun c => c.server_name == s')
        (l.filter (fun c => c.server_name != s) ++ [⟨s, h, r, te, tr⟩]) =
        List.find? (fun c => c.server_name == s') l := by
    intro l
    induction l with
    | nil => simp [List.find?, hss]
    | cons a t ih =>
      by_cases ha : a.server_name = s
      · have hps : (a.server_name == s') = false := by
          rw [ha]
          exact hss
        have hbn : (a.server_name != s) = false := by simp [ha]
        simp [List.filter_cons, hbn, List.find?, hps, ih]
      · have hbn : (a.server_name != s) = true := by simp [ha]
        by_cases hp : a.server_name = s'
        · have hb : (a.server_name == s') = true := by simp [hp]
          simp [List.filter_cons, hbn, List.find?, hb]
        · have hb : (a.server_name == s') = false := by simp [hp]
          simp [List.filter_cons, hbn, List.find?, hb, ih]
  rw [key]

theorem update_checkpoint_frame (db : DB) (s : String) (h r te tr : Nat) :
    (update_checkpoint db s h r te tr).file_exchanges = db.file_exchanges ∧
    (update_checkpoint db s h r te tr).received_files = db.received_files ∧
    (update_checkpoint db s h r te tr).daily_activity = db.daily_activity ∧
    (update_checkpoint db s h r te tr).servers = db.servers := by
  simp [update_checkpoint]

theorem update_server_totals_frame (db : DB) (s : String) :
    (update_server_totals db s).file_exchanges = db.file_exchanges ∧
    (update_server_totals db s).received_files = db.received_files ∧
    (update_server_totals db s).file_checkpoints = db.file_checkpoints ∧
    (update_server_totals db s).daily_activity = db.daily_activity := by
  simp [update_server_totals]

theorem procHistRows_counter (s : String) (L : Nat) :
    ∀ (rows : List HistoryRow) (cur : Nat) (db : DB),
      (procHistRows s L rows cur db).2.1 = cur + rows.length := by
  intro rows
  induction rows with
  | nil => intro cur db; simp [procHistRows]
  | cons r rs ih =>
    intro cur db
    by_cases h : cur + 1 ≤ L
    · simp only [procHistRows, if_pos h]
      rw [ih]
      simp [List.length_cons]
      omega
    · simp only [procHistRows, if_neg h]
      rw [ih]
      simp [List.length_cons]
      omega

theorem procHistRows_frame (s : String) (L : Nat) :
    ∀ (rows : List HistoryRow) (cur : Nat) (db : DB),
      (procHistRows s L rows cur db).2.2.file_checkpoints = db.file_checkpoints ∧
      (procHistRows s L rows cur db).2.2.received_files = db.received_files ∧
      (procHistRows s L rows cur db).2.2.servers = db.servers := by
  intro rows
  induction rows with
  | nil => intro cur db; simp [procHistRows]
  | cons r rs ih =>
    intro cur db
    by_cases h : cur + 1 ≤ L
    · simp only [procHistRows, if_pos h]
      exact ih (cur + 1) db
    · simp only [procHistRows, if_neg h]
      by_cases h2 : r.timestamp ≠ "" ∧ r.action = "sent"
      · simp only [if_pos h2]
        exact ih (cur + 1) _
      · simp only [if_neg h2]
        exact ih (cur + 1) _

theorem procHistRows_skip (s : String) (L : Nat) :
    ∀ (rows : List HistoryRow) (cur : Nat) (db : DB), cur + rows.length ≤ L →
      procHistRows s L rows cur db = (0, cur + rows.length, db) := by
  intro rows
  induction rows with
  | nil => intro cur db _; simp [procHistRows]
  | cons r rs ih =>
    intro cur db hle
    have h1 : cur + 1 ≤ L := by
      simp [List.length_cons] at hle
      omega
    simp only [procHistRows, if_pos h1]
    rw [ih (cur + 1) db (by simp [List.length_cons] at hle ⊢; omega)]
    simp [List.length_cons]
    omega

theorem procHistRows_skip_append (s : String) (L : Nat) :
    ∀ (pre post : List HistoryRow) (cur : Nat) (db : DB), cur + pre.length ≤ L →
      procHistRows s L (pre ++ post) cur db = procHistRows s L post (cur + pre.length) db := by
  intro pre
  induction pre with
  | nil => intro post cur db _; simp
  | cons r rs ih =>
    intro post cur db hle
    have h1 : cur + 1 ≤ L := by
      simp [List.length_cons] at hle
      omega
    simp only [List.cons_append, procHistRows, if_pos h1]
    rw [show rs.append post = rs ++ post from rfl]
    rw [ih post (cur + 1) db (by simp [List.length_cons] at hle ⊢; omega)]
    congr 1
    simp [List.length_cons]
    omega

theorem procHistRows_count_all (s : String) (L : Nat) :
    ∀ (rows : List HistoryRow) (cur : Nat) (db : DB), L ≤ cur →
      (procHistRows s L rows cur db).1 = rows.length := by
  intro rows
  induction rows with
  | nil => intro cur db _; simp [procHistRows]
  | cons r rs ih =>
    intro cur db hge
    have h1 : ¬cur + 1 ≤ L := by omega
    simp only [procHistRows, if_neg h1]
    rw [ih (cur + 1) _ (by omega)]
    simp [List.length_cons]

theorem procHistRows_store_fresh (s : String) (L : Nat) :
    ∀ (rows : List HistoryRow) (cur : Nat) (db : DB), L ≤ cur →
      (∀ r ∈ rows, ∀ x ∈ db.file_exchanges, exKey x ≠ exKey (mkExchangeRec s r)) →
      rows.Pairwise (fun a b => exKey (mkExchangeRec s a) ≠ exKey (mkExchangeRec s b)) →
      (procHistRows s L rows cur db).2.2.file_exchanges =
        db.file_exchanges ++ rows.map (mkExchangeRec s) := by
  intro rows
  induction rows with
  | nil => intro cur db _ _ _; simp [procHistRows]
  | cons r rs ih =>
    intro cur db hge hfresh hpair
    have h1 : ¬cur + 1 ≤ L := by omega
    have hins : insertExchange db.file_exchanges (mkExchangeRec s r) =
        db.file_exchanges ++ [mkExchangeRec s r] := by
      unfold insertExchange
      rw [if_neg]
      intro hany
      rw [List.any_eq_true] at hany
      obtain ⟨x, hx, hkey⟩ := hany
      exact hfresh r (by simp) x hx (by simpa using hkey)
    simp only [procHistRows, if_neg h1]
    rcases List.pairwise_cons.mp hpair with ⟨hhead, htail⟩
    by_cases h2 : r.timestamp ≠ "" ∧ r.action = "sent"
    · simp only [if_pos h2]
      rw [ih (cur + 1) _ (by omega) ?fresh htail]
      · simp [hins, List.append_assoc]
      case fresh =>
        intro r' hr' x hx
        simp only [hins] at hx
        rcases List.mem_append.mp hx with hx1 | hx2
        · exact hfresh r' (by simp [hr']) x hx1
        · have : x = mkExchangeRec s r := by simpa using hx2
          rw [this]
          exact hhead r' hr'
    · simp only [if_neg h2]
      rw [ih (cur + 1) _ (by omega) ?fresh2 htail]
      · simp [hins, List.append_assoc]
      case fresh2 =>
        intro r' hr' x hx
        simp only [hins] at hx
        rcases List.mem_append.mp hx with hx1 | hx2
        · exact hfresh r' (by simp [hr']) x hx1
        · have : x = mkExchangeRec s r := by simpa using hx2
          rw [this]
          exact hhead r' hr'

theorem scanLines_count (s : String) (L : Nat) :
    ∀ (lines : List String) (st : ScanState),
      (scanLines s L lines st).count = st.count + countEntriesFrom st.inSection lines := by
  intro lines
  induction lines with
  | nil => intro st; simp [scanLines, countEntriesFrom]
  | cons l ls ih =>
    intro st
    simp only [scanLines]
    rw [ih]
    by_cases hFR : pyContains (pyStrip l) "Files Received:" = true
    · simp [scanStep, countEntriesFrom, hFR]
    · have hFR' : pyContains (pyStrip l) "Files Received:" = false := by simpa using hFR
      by_cases hE : (st.inSection && pyStartsWith (pyStrip l) "- ") = true
      · have hsec : st.inSection = true := ((Bool.and_eq_true _ _).mp hE).1
        have hSW : pyStartsWith (pyStrip l) "- " = true := ((Bool.and_eq_true _ _).mp hE).2
        by_cases hskip : st.count + 1 ≤ L
        · simp [scanStep, countEntriesFrom, hFR', hE, hskip, hsec, hSW]
          omega
        · cases hpe : parseRecvEntry s (pyStrip l) with
          | none =>
            simp [scanStep, countEntriesFrom, hFR', hE, hskip, hsec, hSW, hpe]
            omega
          | some pr =>
            simp [scanStep, countEntriesFrom, hFR', hE, hskip, hsec, hSW, hpe]
            omega
      · have hE' : (st.inSection && pyStartsWith (pyStrip l) "- ") = false := by
          simpa using hE
        by_cases hT : (st.inSection && pyStartsWith (pyStrip l) "Total Files:") = true
        · simp [scanStep, countEntriesFrom, hFR', hE', hT]
        · have hT' : (st.inSection && pyStartsWith (pyStrip l) "Total Files:") = false := by
            simpa using hT
          simp [scanStep, countEntriesFrom, hFR', hE', hT']

theorem scanLines_skip (s : String) (L : Nat) :
    ∀ (lines : List String) (st : ScanState),
      st.count + countEntriesFrom st.inSection lines ≤ L →
      (scanLines s L lines st).newFiles = st.newFiles ∧
      (scanLines s L lines st).db = st.db := by
  intro lines
  induction lines with
  | nil => intro st _; simp [scanLines]
  | cons l ls ih =>
    intro st hle
    simp only [scanLines]
    by_cases hFR : pyContains (pyStrip l) "Files Received:" = true
    · have hstep : scanStep s L st l = { st with inSection := true } := by
        simp [scanStep, hFR]
      rw [hstep]
      refine ih _ ?_
      simp [countEntriesFrom, hFR] at hle
      simpa using hle
    · have hFR' : pyContains (pyStrip l) "Files Received:" = false := by simpa using hFR
      by_cases hE : (st.inSection && pyStartsWith (pyStrip l) "- ") = true
      · have hsec : st.inSection = true := ((Bool.and_eq_true _ _).mp hE).1
        have hSW : pyStartsWith (pyStrip l) "- " = true := ((Bool.and_eq_true _ _).mp hE).2
        have hle1 : st.count + (1 + countEntriesFrom true ls) ≤ L := by
          simpa [countEntriesFrom, hFR', hsec, hSW] using hle
        have hskip : st.count + 1 ≤ L := by omega
        have hstep : scanStep s L st l = { st with count := st.count + 1 } := by
          simp [scanStep, hFR', hE, hskip]
        rw [hstep]
        refine ih _ ?_
        simp [hsec]
        omega
      · have hE' : (st.inSection && pyStartsWith (pyStrip l) "- ") = false := by
          simpa using hE
        by_cases hT : (st.inSection && pyStartsWith (pyStrip l) "Total Files:") = true
        · have hstep : scanStep s L st l = { st with inSection := false } := by
            simp [scanStep, hFR', hE', hT]
          rw [hstep]
          refine ih _ ?_
          simpa [countEntriesFrom, hFR', hE', hT] using hle
        · have hT' : (st.inSection && pyStartsWith (pyStrip l) "Total Files:") = false := by
            simpa using hT
          have hstep : scanStep s L st l = st := by
            simp [scanStep, hFR', hE', hT']
          rw [hstep]
          refine ih _ ?_
          simpa [countEntriesFrom, hFR', hE', hT'] using hle

theorem scanLines_frame (s : String) (L : Nat) :
    ∀ (lines : List String) (st : ScanState),
      (scanLines s L lines st).db.file_exchanges = st.db.file_exchanges ∧
      (scanLines s L lines st).db.file_checkpoints = st.db.file_checkpoints ∧
      (scanLines s L lines st).db.servers = st.db.servers := by
  intro lines
  induction lines with
  | nil => intro st; simp [scanLines]
  | cons l ls ih =>
    intro st
    simp only [scanLines]
    rcases ih (scanStep s L st l) with ⟨ih1, ih2, ih3⟩
    rw [ih1, ih2, ih3]
    have hdb : (scanStep s L st l).db.file_exchanges = st.db.file_exchanges ∧
        (scanStep s L st l).db.file_checkpoints = st.db.file_checkpoints ∧
        (scanStep s L st l).db.servers = st.db.servers := by
      by_cases hFR : pyContains (pyStrip l) "Files Received:" = true
      · simp [scanStep, hFR]
      · have hFR' : pyContains (pyStrip l) "Files Received:" = false := by simpa using hFR
        by_cases hE : (st.inSection && pyStartsWith (pyStrip l) "- ") = true
        · by_cases hskip : st.count + 1 ≤ L
          · simp [scanStep, hFR', hE, hskip]
          · cases hpe : parseRecvEntry s (pyStrip l) with
            | none => simp [scanStep, hFR', hE, hskip, hpe]
            | some pr =>
              by_cases hrd : pr.1.received_date = ""
              · simp [scanStep, hFR', hE, hskip, hpe, hrd]
              · simp [scanStep, hFR', hE, hskip, hpe, hrd]
        · have hE' : (st.inSection && pyStartsWith (pyStrip l) "- ") = false := by
            simpa using hE
          by_cases hT : (st.inSection && pyStartsWith (pyStrip l) "Total Files:") = true
          · simp [scanStep, hFR', hE', hT]
          · have hT' : (st.inSection && pyStartsWith (pyStrip l) "Total Files:") = false := by
              simpa using hT
            simp [scanStep, hFR', hE', hT']
    exact hdb

theorem get_checkpoint_eq_of_fc (db db' : DB)
    (h : db'.file_checkpoints = db.file_checkpoints) (s : String) :
    get_checkpoint db' s = get_checkpoint db s := by
  unfold get_checkpoint
  rw [h]

theorem hist_fc_frame (s : String) (hist : Option (List HistoryRow)) (db : DB) :
    (process_history_file_incremental s hist db).2.2.file_checkpoints =
      db.file_checkpoints := by
  cases hist with
  | none => rfl
  | some rows =>
    exact (procHistRows_frame s (get_checkpoint db s).last_history_line rows 0 db).1

theorem hist_rf_frame (s : String) (hist : Option (List HistoryRow)) (db : DB) :
    (process_history_file_incremental s hist db).2.2.received_files =
      db.received_files := by
  cases hist with
  | none => rfl
  | some rows =>
    exact (procHistRows_frame s (get_checkpoint db s).last_history_line rows 0 db).2.1

theorem summ_fc_frame (s : String) (summ : Option (List String)) (db : DB) :
    (process_received_summary_incremental s summ db).2.2.file_checkpoints =
      db.file_checkpoints := by
  cases summ with
  | none => rfl
  | some lines =>
    exact (scanLines_frame s (get_checkpoint db s).last_received_count lines
      ⟨false, 0, 0, db⟩).2.1

theorem summ_fx_frame (s : String) (summ : Option (List String)) (db : DB) :
    (process_received_summary_incremental s summ db).2.2.file_exchanges =
      db.file_exchanges := by
  cases summ with
  | none => rfl
  | some lines =>
    exact (scanLines_frame s (get_checkpoint db s).last_received_count lines
      ⟨false, 0, 0, db⟩).1

theorem get_checkpoint_totals (db : DB) (s s' : String) :
    get_checkpoint (update_server_totals db s) s' = get_checkpoint db s' :=
  get_checkpoint_eq_of_fc db _ (update_server_totals_frame db s).2.2.1 s'

theorem get_checkpoint_hist (s : String) (hist : Option (List HistoryRow)) (db : DB)
    (s' : String) :
    get_checkpoint (process_history_file_incremental s hist db).2.2 s' =
      get_checkpoint db s' :=
  get_checkpoint_eq_of_fc db _ (hist_fc_frame s hist db) s'

theorem get_checkpoint_summ (s : String) (summ : Option (List String)) (db : DB)
    (s' : String) :
    get_checkpoint (process_received_summary_incremental s summ db).2.2 s' =
      get_checkpoint db s' :=
  get_checkpoint_eq_of_fc db _ (summ_fc_frame s summ db) s'

theorem hist_counter (s : String) (hist : Option (List HistoryRow)) (db : DB) :
    (process_history_file_incremental s hist db).2.1 = envHistCount hist := by
  cases hist with
  | none => rfl
  | some rows =>
    have := procHistRows_counter s (get_checkpoint db s).last_history_line rows 0 db
    simpa [process_history_file_incremental, envHistCount] using this

theorem summ_counter (s : String) (summ : Option (List String)) (db : DB) :
    (process_received_summary_incremental s summ db).2.1 = envEntryCount summ := by
  cases summ with
  | none => rfl
  | some lines =>
    have := scanLines_count s (get_checkpoint db s).last_received_count lines
      ⟨false, 0, 0, db⟩
    simpa [process_received_summary_incremental, envEntryCount] using this

theorem hist_second (s : String) (db : DB) (hist : Option (List HistoryRow))
    (h : (get_checkpoint db s).last_history_line = envHistCount hist) :
    process_history_file_incremental s hist db = (0, envHistCount hist, db) := by
  cases hist with
  | none => rfl
  | some rows =>
    simp only [envHistCount] at h ⊢
    simp only [process_history_file_incremental]
    rw [h]
    have := procHistRows_skip s rows.length rows 0 db (by omega)
    simpa using this

theorem summ_second (s : String) (db : DB) (summ : Option (List String))
    (h : (get_checkpoint db s).last_received_count = envEntryCount summ) :
    (process_received_summary_incremental s summ db).1 = 0 ∧
    (process_received_summary_incremental s summ db).2.2 = db := by
  cases summ with
  | none => exact ⟨rfl, rfl⟩
  | some lines =>
    simp only [envEntryCount] at h
    have hs := scanLines_skip s (get_checkpoint db s).last_received_count lines
      ⟨false, 0, 0, db⟩ (by simp [h])
    exact ⟨by simpa [process_received_summary_incremental] using hs.1,
      by simpa [process_received_summary_incremental] using hs.2⟩

theorem srv_cp_other (dirOk : Bool) (hist : Option (List HistoryRow))
    (summ : Option (List String)) (s s' : String) (hne : s' ≠ s) (db : DB) :
    get_checkpoint (incremental_update_server dirOk hist summ s db).2 s' =
      get_checkpoint db s' := by
  cases dirOk with
  | false => rfl
  | true =>
    simp only [incremental_update_server, Bool.not_true, Bool.false_eq_true,
      if_false]
    rw [get_checkpoint_totals, get_checkpoint_update_other _ _ _ hne,
      get_checkpoint_summ, get_checkpoint_hist]

theorem srv_cp_self (hist : Option (List HistoryRow)) (summ : Option (List String))
    (s : String) (db : DB) :
    (get_checkpoint (incremental_update_server true hist summ s db).2 s).last_history_line =
      envHistCount hist ∧
    (get_checkpoint (incremental_update_server true hist summ s db).2 s).last_received_count =
      envEntryCount summ := by
  simp only [incremental_update_server, Bool.not_true, Bool.false_eq_true, if_false]
  rw [get_checkpoint_totals, get_checkpoint_update_self]
  constructor
  · simpa using hist_counter s hist db
  · simpa using summ_counter s summ _

theorem srv_second_run (hist : Option (List HistoryRow)) (summ : Option (List String))
    (s : String) (db : DB)
    (h1 : (get_checkpoint db s).last_history_line = envHistCount hist)
    (h2 : (get_checkpoint db s).last_received_count = envEntryCount summ) :
    (incremental_update_server true hist summ s db).1.new_exchanges = 0 ∧
    (incremental_update_server true hist summ s db).1.new_received = 0 ∧
    (incremental_update_server true hist summ s db).2.file_exchanges = db.file_exchanges ∧
    (incremental_update_server true hist summ s db).2.received_files = db.received_files := by
  have hh := hist_second s db hist h1
  obtain ⟨hs1, hs2⟩ := summ_second s db summ h2
  simp only [incremental_update_server, Bool.not_true, Bool.false_eq_true, if_false, hh]
  simp only [hs1, hs2]
  refine ⟨trivial, trivial, ?_, ?_⟩
  · rw [(update_server_totals_frame _ s).1, (update_checkpoint_frame _ s _ _ _ _).1]
  · rw [(update_server_totals_frame _ s).2.1, (update_checkpoint_frame _ s _ _ _ _).2.1]

theorem cycleFold_cp_frame (env : String → HostEnv) :
    ∀ (hosts : List String) (acc : Totals × DB) (s : String), s ∉ hosts →
      get_checkpoint (cycleFold env hosts acc).2 s = get_checkpoint acc.2 s := by
  intro hosts
  induction hosts with
  | nil => intro acc s _; rfl
  | cons a hs ih =>
    intro acc s hnot
    have hne : s ≠ a := fun h => hnot (h ▸ List.mem_cons_self a hs)
    have hnot2 : s ∉ hs := fun h => hnot (List.mem_cons_of_mem a h)
    simp only [cycleFold, List.foldl_cons]
    rw [show List.foldl (cycleStep env) (cycleStep env acc a) hs =
      cycleFold env hs (cycleStep env acc a) from rfl]
    rw [ih (cycleStep env acc a) s hnot2]
    exact srv_cp_other _ _ _ a s hne acc.2

theorem cycleFold_sync (env : String → HostEnv) :
    ∀ (hosts : List String) (acc : Totals × DB) (s : String), s ∈ hosts →
      cpSynced env (cycleFold env hosts acc).2 s := by
  intro hosts
  induction hosts with
  | nil => intro acc s h; exact absurd h (List.not_mem_nil s)
  | cons a hs ih =>
    intro acc s hmem
    simp only [cycleFold, List.foldl_cons]
    rw [show List.foldl (cycleStep env) (cycleStep env acc a) hs =
      cycleFold env hs (cycleStep env acc a) from rfl]
    by_cases hin : s ∈ hs
    · exact ih _ s hin
    · have hsa : s = a := by
        rcases List.mem_cons.mp hmem with h | h
        · exact h
        · exact absurd h hin
      subst hsa
      intro hd
      rw [cycleFold_cp_frame env hs _ s hin]
      have hstep : (cycleStep env acc s).2 =
          (incremental_update_server true (env s).hist (env s).summ s acc.2).2 := by
        simp [cycleStep, hd]
      rw [hstep]
      exact srv_cp_self (env s).hist (env s).summ s acc.2

theorem cycleFold_zero (env : String → HostEnv) :
    ∀ (hosts : List String) (t : Totals) (db : DB),
      (∀ s ∈ hosts, cpSynced env db s) →
      (cycleFold env hosts (t, db)).1.new_exchanges = t.new_exchanges ∧
      (cycleFold env hosts (t, db)).1.new_received = t.new_received ∧
      (cycleFold env hosts (t, db)).2.file_exchanges = db.file_exchanges ∧
      (cycleFold env hosts (t, db)).2.received_files = db.received_files := by
  intro hosts
  induction hosts with
  | nil => intro t db _; exact ⟨rfl, rfl, rfl, rfl⟩
  | cons a hs ih =>
    intro t db hsync
    obtain ⟨tne, tnr, tth⟩ := t
    simp only [cycleFold, List.foldl_cons]
    rw [show List.foldl (cycleStep env) (cycleStep env (⟨tne, tnr, tth⟩, db) a) hs =
      cycleFold env hs (cycleStep env (⟨tne, tnr, tth⟩, db) a) from rfl]
    have hsynced : ∀ s ∈ hs, cpSynced env (cycleStep env (⟨tne, tnr, tth⟩, db) a).2 s := by
      intro s hsmem
      by_cases hseq : s = a
      · subst hseq
        intro hd
        have hstep : (cycleStep env (⟨tne, tnr, tth⟩, db) s).2 =
            (incremental_update_server true (env s).hist (env s).summ s db).2 := by
          simp [cycleStep, hd]
        rw [hstep]
        exact srv_cp_self (env s).hist (env s).summ s db
      · intro hd
        have hstep : (cycleStep env (⟨tne, tnr, tth⟩, db) a).2 =
            (incremental_update_server (env a).dirOk (env a).hist (env a).summ a db).2 := rfl
        rw [hstep, srv_cp_other _ _ _ a s hseq db]
        exact hsync s (List.mem_cons_of_mem a hsmem) hd
    cases hda : (env a).dirOk with
    | false =>
      have hstep : cycleStep env (⟨tne, tnr, tth⟩, db) a =
          (⟨tne, tnr, tth⟩, db) := by
        simp [cycleStep, hda, incremental_update_server]
      rw [hstep] at hsynced ⊢
      exact ih ⟨tne, tnr, tth⟩ db hsynced
    | true =>
      obtain ⟨hcp1, hcp2⟩ := hsync a (List.mem_cons_self a hs) hda
      obtain ⟨z1, z2, z3, z4⟩ := srv_second_run (env a).hist (env a).summ a db hcp1 hcp2
      have hP1 : (cycleStep env (⟨tne, tnr, tth⟩, db) a).1.new_exchanges = tne := by
        simp [cycleStep, hda, z1]
      have hP2 : (cycleStep env (⟨tne, tnr, tth⟩, db) a).1.new_received = tnr := by
        simp [cycleStep, hda, z2]
      have hP3 : (cycleStep env (⟨tne, tnr, tth⟩, db) a).2.file_exchanges =
          db.file_exchanges := by
        have hstep : (cycleStep env (⟨tne, tnr, tth⟩, db) a).2 =
            (incremental_update_server true (env a).hist (env a).summ a db).2 := by
          simp [cycleStep, hda]
        rw [hstep]
        exact z3
      have hP4 : (cycleStep env (⟨tne, tnr, tth⟩, db) a).2.received_files =
          db.received_files := by
        have hstep : (cycleStep env (⟨tne, tnr, tth⟩, db) a).2 =
            (incremental_update_server true (env a).hist (env a).summ a db).2 := by
          simp [cycleStep, hda]
        rw [hstep]
        exact z4
      have hpair : cycleStep env (⟨tne, tnr, tth⟩, db) a =
          ((cycleStep env (⟨tne, tnr, tth⟩, db) a).1,
            (cycleStep env (⟨tne, tnr, tth⟩, db) a).2) := rfl
      rw [hpair] at hsynced ⊢
      obtain ⟨i1, i2, i3, i4⟩ := ih (cycleStep env (⟨tne, tnr, tth⟩, db) a).1
        (cycleStep env (⟨tne, tnr, tth⟩, db) a).2 hsynced
      exact ⟨by rw [i1, hP1], by rw [i2, hP2], by rw [i3, hP3], by rw [i4, hP4]⟩

theorem catchFold_sums (run : String → Except String ServerResult) :
    ∀ (hosts : List String) (acc : Totals),
      (hosts.foldl (catchStep run) acc).new_exchanges = acc.new_exchanges +
        ((hosts.filterMap (fun s => (run s).toOption)).map
          (fun r => r.new_exchanges)).sum ∧
      (hosts.foldl (catchStep run) acc).new_received = acc.new_received +
        ((hosts.filterMap (fun s => (run s).toOption)).map
          (fun r => r.new_received)).sum ∧
      (hosts.foldl (catchStep run) acc).total_historical = acc.total_historical +
        ((hosts.filterMap (fun s => (run s).toOption)).map
          (fun r => r.total_exchanges + r.total_received)).sum := by
  intro hosts
  induction hosts with
  | nil => intro acc; simp
  | cons a hs ih =>
    intro acc
    obtain ⟨ane, anr, ath⟩ := acc
    cases hra : run a with
    | error e =>
      have hstep : catchStep run ⟨ane, anr, ath⟩ a = ⟨ane, anr, ath⟩ := by
        simp [catchStep, hra]
      simp only [List.foldl_cons, hstep, List.filterMap_cons, hra, Except.toOption]
      exact ih ⟨ane, anr, ath⟩
    | ok r =>
      have hto : (run a).toOption = some r := by rw [hra]; rfl
      have hstep : catchStep run ⟨ane, anr, ath⟩ a =
          ⟨ane + r.new_exchanges, anr + r.new_received,
            ath + (r.total_exchanges + r.total_received)⟩ := by
        simp [catchStep, hra]
      simp only [List.foldl_cons, hstep, List.filterMap_cons, hto]
      obtain ⟨j1, j2, j3⟩ := ih ⟨ane + r.new_exchanges, anr + r.new_received,
        ath + (r.total_exchanges + r.total_received)⟩
      refine ⟨?_, ?_, ?_⟩
      · rw [j1]
        dsimp only
        simp only [List.map_cons, List.sum_cons]
        omega
      · rw [j2]
        dsimp only
        simp only [List.map_cons, List.sum_cons]
        omega
      · rw [j3]
        dsimp only
        simp only [List.map_cons, List.sum_cons]
        omega

/-! Claim theorems. -/

/-- C1: the claim states that running table initialization (as the engine's
constructor does) leaves every existing row of the checkpoint,
exchange-record, received-file and daily-activity tables in place.  The code
does the opposite: init_incremental_tables DROPs the four tables before
recreating them, so on a populated store every row of all four tables is
deleted.  This theorem evaluates the code at such a store: each table that
was nonempty is empty afterwards. -/
theorem c1_init_drops_all_rows :
    (init_incremental_tables popDB).file_checkpoints = [] ∧
    (init_incremental_tables popDB).file_exchanges = [] ∧
    (init_incremental_tables popDB).received_files = [] ∧
    (init_incremental_tables popDB).daily_activity = [] ∧
    popDB.file_checkpoints ≠ [] ∧ popDB.file_exchanges ≠ [] ∧
    popDB.received_files ≠ [] ∧ popDB.daily_activity ≠ [] := by
  decide

/-- C2: the claim states that re-ingesting a ledger row whose
(host, timestamp, filename, action) key already exists is not counted in the
returned new-record-count and does not invoke the Daily Aggregator.  The
code uses INSERT OR IGNORE, which never raises IntegrityError, so the
except-branch that would skip the bookkeeping is dead: on a store already
holding the record, re-processing the same row leaves the exchange table
unchanged (the uniqueness violation itself is swallowed) but returns a
new-record-count of 1 (not 0) and bumps the daily sent aggregate for the
duplicate. -/
theorem c2_duplicate_counted_and_aggregated :
    (process_history_file_incremental "ubuntu-server-1" (some [dupRow]) dbDup).1 = 1 ∧
    (process_history_file_incremental "ubuntu-server-1" (some [dupRow]) dbDup).2.2.file_exchanges
      = dbDup.file_exchanges ∧
    (process_history_file_incremental "ubuntu-server-1" (some [dupRow]) dbDup).2.2.daily_activity
      = [⟨"2025-05-14", "ubuntu-server-1", 1, 0, 2048, 0⟩] := by
  decide

/-- C3: parsing the spec's received-summary scenario line (checkpoint at 0)
ingests exactly one ReceivedFileRecord whose received date is
2025-05-14 01:01:57 and whose stored size string normalizes to 931 — but its
source host is ubuntu-server-20250514 (the code rebuilds the source from the
third underscore-separated piece of the filename, which is the date stamp),
not ubuntu-server-2 as the claim states. -/
theorem c3_scenario_ingests_wrong_source :
    (process_received_summary_incremental "ubuntu-server-1"
      (some ["Files Received:", c3line]) emptyDB).1 = 1 ∧
    (process_received_summary_incremental "ubuntu-server-1"
      (some ["Files Received:", c3line]) emptyDB).2.2.received_files =
      [⟨"ubuntu-server-1", "from_ubuntu-server-2_20250514_010156.txt",
        "ubuntu-server-20250514", "2025-05-14 01:01:57", "931 bytes"⟩] ∧
    parse_file_size "931 bytes" = 931 ∧
    "ubuntu-server-20250514" ≠ "ubuntu-server-2" := by
  decide

/-- C4 counterexample: on a host whose checkpoint is at (5, 3), a cycle in
which both artifact files are absent writes back a checkpoint of (0, 0):
the counters strictly decrease, refuting the claimed monotonic
non-decrease "including when an artifact file is absent during that
cycle". -/
theorem c4_counterexample_absent_file_resets :
    (get_checkpoint (incremental_update_server true none none "ubuntu-server-1" popDB).2
      "ubuntu-server-1").last_history_line <
      (get_checkpoint popDB "ubuntu-server-1").last_history_line ∧
    (get_checkpoint (incremental_update_server true none none "ubuntu-server-1" popDB).2
      "ubuntu-server-1").last_received_count <
      (get_checkpoint popDB "ubuntu-server-1").last_received_count := by
  decide

/-- C5: the size normalizer maps the canonical forms as specified —
1.5 KB to 1536, 2 MB to 2097152, 931 bytes to 931 — and every input on
which the branch parse fails (such as garbage, an unknown unit, or the
empty string, which short-circuits via the falsy check) yields 0 rather
than an error. -/
theorem c5_size_normalizer :
    parse_file_size "1.5 KB" = 1536 ∧
    parse_file_size "2 MB" = 2097152 ∧
    parse_file_size "931 bytes" = 931 ∧
    parse_file_size "garbage" = 0 ∧
    parse_file_size "" = 0 ∧
    ∀ s : String, parse_size_branches s = none → parse_file_size s = 0 := by
  refine ⟨by decide, by decide, by decide, by decide, by decide, ?_⟩
  intro s h
  unfold parse_file_size
  by_cases hs : s = ""
  · simp [hs]
  · simp [hs, h]

/-- Witness for C5: the universally quantified error clause applied at the
concrete failing input 12 XB (unknown unit, bare-number parse fails). -/
theorem c5_witness :
    parse_size_branches "12 XB" = none ∧ parse_file_size "12 XB" = 0 :=
  ⟨by decide, c5_size_normalizer.2.2.2.2.2 "12 XB" (by decide)⟩

/-- C8 counterexample: the entry line dash-space badfile.txt inside the
Files Received section does not match the shape
filename (Size: size-and-date-blob), yet the code does not skip it: a
ReceivedFileRecord with the whole remainder as filename and empty size and
date is inserted (and counted as a new file), refuting the claim that no
record is inserted for such a line. -/
theorem c8_counterexample_malformed_inserted :
    (process_received_summary_incremental "ubuntu-server-1"
      (some ["Files Received:", "- badfile.txt"]) emptyDB).2.2.received_files =
      [⟨"ubuntu-server-1", "badfile.txt", "unknown", "", ""⟩] ∧
    (process_received_summary_incremental "ubuntu-server-1"
      (some ["Files Received:", "- badfile.txt"]) emptyDB).1 = 1 ∧
    (⟨"ubuntu-server-1", "badfile.txt", "unknown", "", ""⟩ : ReceivedFileRecord) ∉
      emptyDB.received_files := by
  decide

/-- C4 (amended): the checkpoint counters written at the end of a cycle are
greater than or equal to those read at its start provided each artifact file
is present and contains at least as many data rows / entry lines as the
stored counter; when an artifact file is absent the counter is instead reset
to 0 (see the counterexample), and a shrunken file likewise lowers it, since
the value written back is always the count derived from the current file
content. -/
theorem c4_checkpoint_monotone_when_files_cover (server : String) (db : DB)
    (rows : List HistoryRow) (lines : List String)
    (h1 : (get_checkpoint db server).last_history_line ≤ rows.length)
    (h2 : (get_checkpoint db server).last_received_count ≤ countEntriesFrom false lines) :
    (get_checkpoint db server).last_history_line ≤
      (get_checkpoint (incremental_update_server true (some rows) (some lines) server db).2
        server).last_history_line ∧
    (get_checkpoint db server).last_received_count ≤
      (get_checkpoint (incremental_update_server true (some rows) (some lines) server db).2
        server).last_received_count := by
  obtain ⟨e1, e2⟩ := srv_cp_self (some rows) (some lines) server db
  rw [e1, e2]
  constructor
  · simpa [envHistCount] using h1
  · simpa [envEntryCount] using h2

/-- Witness for C4's amended claim: a host checkpointed at (5, 3) processing
a 6-row ledger and a summary with 4 entry lines ends with counters at least
as large as before. -/
theorem c4_amended_witness :
    (get_checkpoint popDB "ubuntu-server-1").last_history_line ≤
      (get_checkpoint (incremental_update_server true (some (List.replicate 6 freshRow))
        (some ["Files Received:", "- a", "- b", "- c", "- d"]) "ubuntu-server-1" popDB).2
        "ubuntu-server-1").last_history_line ∧
    (get_checkpoint popDB "ubuntu-server-1").last_received_count ≤
      (get_checkpoint (incremental_update_server true (some (List.replicate 6 freshRow))
        (some ["Files Received:", "- a", "- b", "- c", "- d"]) "ubuntu-server-1" popDB).2
        "ubuntu-server-1").last_received_count :=
  c4_checkpoint_monotone_when_files_cover "ubuntu-server-1" popDB
    (List.replicate 6 freshRow) ["Files Received:", "- a", "- b", "- c", "- d"]
    (by decide) (by decide)

/-- C6: running a second full cycle over unchanged artifacts (the same
environment of per-host files) returns zero new exchanges and zero new
received files, and leaves the exchange-record and received-file tables of
the store exactly as the first cycle left them. -/
theorem c6_cycle_idempotent (env : String → HostEnv) (db0 : DB) :
    (incremental_update_all env (incremental_update_all env db0).2).1.new_exchanges = 0 ∧
    (incremental_update_all env (incremental_update_all env db0).2).1.new_received = 0 ∧
    (incremental_update_all env (incremental_update_all env db0).2).2.file_exchanges =
      (incremental_update_all env db0).2.file_exchanges ∧
    (incremental_update_all env (incremental_update_all env db0).2).2.received_files =
      (incremental_update_all env db0).2.received_files := by
  have hsync : ∀ s ∈ serverNames, cpSynced env (incremental_update_all env db0).2 s := by
    intro s hs
    exact cycleFold_sync env serverNames (⟨0, 0, 0⟩, db0) s hs
  exact cycleFold_zero env serverNames ⟨0, 0, 0⟩ (incremental_update_all env db0).2 hsync

/-- C7: with the checkpoint at N = pre.length and a ledger of the N old rows
plus M appended rows whose uniqueness keys are pairwise distinct and absent
from the store, one cycle reports exactly M new exchange records, grows the
exchange table by exactly M rows, and writes back a checkpoint ledger-line
counter of N + M. -/
theorem c7_incrementality (server : String) (db : DB) (pre post : List HistoryRow)
    (summ : Option (List String))
    (hcp : (get_checkpoint db server).last_history_line = pre.length)
    (hfresh : ∀ r ∈ post, ∀ x ∈ db.file_exchanges,
      exKey x ≠ exKey (mkExchangeRec server r))
    (hpair : post.Pairwise
      (fun a b => exKey (mkExchangeRec server a) ≠ exKey (mkExchangeRec server b))) :
    (incremental_update_server true (some (pre ++ post)) summ server db).1.new_exchanges =
      post.length ∧
    (incremental_update_server true (some (pre ++ post)) summ server
      db).2.file_exchanges.length = db.file_exchanges.length + post.length ∧
    (get_checkpoint (incremental_update_server true (some (pre ++ post)) summ server db).2
      server).last_history_line = pre.length + post.length := by
  have hh : process_history_file_incremental server (some (pre ++ post)) db =
      procHistRows server pre.length post pre.length db := by
    simp only [process_history_file_incremental, hcp]
    rw [procHistRows_skip_append server pre.length pre post 0 db (by omega)]
    simp
  have hcount := procHistRows_count_all server pre.length post pre.length db (Nat.le_refl _)
  have hctr := procHistRows_counter server pre.length post pre.length db
  have hstore := procHistRows_store_fresh server pre.length post pre.length db
    (Nat.le_refl _) hfresh hpair
  simp only [incremental_update_server, Bool.not_true, Bool.false_eq_true, if_false, hh]
  refine ⟨hcount, ?_, ?_⟩
  · rw [(update_server_totals_frame _ server).1, (update_checkpoint_frame _ server _ _ _ _).1,
      summ_fx_frame, hstore]
    simp
  · rw [get_checkpoint_totals, get_checkpoint_update_self]
    simpa using hctr

/-- Witness for C7 at a concrete input: empty store, no old rows, one fresh
appended row, no summary file. -/
theorem c7_witness :
    (incremental_update_server true (some ([] ++ [freshRow])) none "ubuntu-server-1"
      emptyDB).1.new_exchanges = 1 ∧
    (incremental_update_server true (some ([] ++ [freshRow])) none "ubuntu-server-1"
      emptyDB).2.file_exchanges.length = 1 ∧
    (get_checkpoint (incremental_update_server true (some ([] ++ [freshRow])) none
      "ubuntu-server-1" emptyDB).2 "ubuntu-server-1").last_history_line = 1 :=
  c7_incrementality "ubuntu-server-1" emptyDB [] [freshRow] none (by decide)
    (by intro r hr x hx; exact absurd hx (List.not_mem_nil x)) (by simp)

/-- C8 (amended): an entry line of the Files Received section whose parse
raises — its size blob contains the bytes-comma-Date-colon marker but no
Date-colon-space separator, the one shape the entry parser fails on — is
logged and skipped: no ReceivedFileRecord is inserted, no aggregate is
bumped, the state is unchanged except that the entry counter still advances
past the line, and the scan continues with the remaining lines from that
state.  (Entry lines that merely lack the Size marker are NOT skipped: the
code ingests them with empty size and date — see the counterexample.) -/
theorem c8_amended_malformed_raise_skipped (server : String) (L : Nat) (st : ScanState)
    (l : String) (rest : List String)
    (hsec : st.inSection = true)
    (hsw : pyStartsWith (pyStrip l) "- " = true)
    (hnfr : pyContains (pyStrip l) "Files Received:" = false)
    (hnew : L < st.count + 1)
    (hfail : parseRecvEntry server (pyStrip l) = none) :
    scanStep server L st l = { st with count := st.count + 1 } ∧
    scanLines server L (l :: rest) st =
      scanLines server L rest { st with count := st.count + 1 } := by
  have hsk : ¬(st.count + 1 ≤ L) := by omega
  have hstep : scanStep server L st l = { st with count := st.count + 1 } := by
    simp [scanStep, hnfr, hsec, hsw, hfail, hsk]
  exact ⟨hstep, by simp [scanLines, hstep]⟩

/-- Witness for C8's amended claim at the concrete raising line
dash f.txt (Size: 10 bytes, Date:x): the scan state keeps its store and
new-file count, only the entry counter advances. -/
theorem c8_amended_witness :
    scanStep "ubuntu-server-1" 0 ⟨true, 0, 0, emptyDB⟩
      "- f.txt (Size: 10 bytes, Date:x)" = ⟨true, 1, 0, emptyDB⟩ ∧
    scanLines "ubuntu-server-1" 0 ["- f.txt (Size: 10 bytes, Date:x)"]
      ⟨true, 0, 0, emptyDB⟩ =
      scanLines "ubuntu-server-1" 0 [] ⟨true, 1, 0, emptyDB⟩ :=
  c8_amended_malformed_raise_skipped "ubuntu-server-1" 0 ⟨true, 0, 0, emptyDB⟩
    "- f.txt (Size: 10 bytes, Date:x)" [] rfl (by decide) (by decide) (by decide)
    (by decide)

/-- C9: the orchestrator's per-host try/except isolates failures — for every
assignment of per-host outcomes (success with a result, or a raised error),
the returned aggregate is well-formed and equals, component by component, the
sums of the per-host counts over exactly the hosts that completed; hosts
after a failing host still contribute. -/
theorem c9_orchestrator_error_isolation (run : String → Except String ServerResult) :
    (incremental_update_all_catch run).new_exchanges =
      ((serverNames.filterMap (fun s => (run s).toOption)).map
        (fun r => r.new_exchanges)).sum ∧
    (incremental_update_all_catch run).new_received =
      ((serverNames.filterMap (fun s => (run s).toOption)).map
        (fun r => r.new_received)).sum ∧
    (incremental_update_all_catch run).total_historical =
      ((serverNames.filterMap (fun s => (run s).toOption)).map
        (fun r => r.total_exchanges + r.total_received)).sum := by
  obtain ⟨j1, j2, j3⟩ := catchFold_sums run serverNames ⟨0, 0, 0⟩
  refine ⟨?_, ?_, ?_⟩
  · simpa [incremental_update_all_catch] using j1
  · simpa [incremental_update_all_catch] using j2
  · simpa [incremental_update_all_catch] using j3

/-- C10: calling the daily-activity bump with a direction other than sent
or received falls through the if/elif chain and leaves the daily-activity
state completely unchanged (and the method, wrapped in try/except, never
raises). -/
theorem c10_bump_other_action_noop (da : List DailyRow) (date server action : String)
    (size : Int) (hs : action ≠ "sent") (hr : action ≠ "received") :
    update_daily_activity da date server action size = da := by
  unfold update_daily_activity
  rw [if_neg hs, if_neg hr]

/-- Witness for C10 at a concrete state and the direction value uploaded. -/
theorem c10_witness :
    update_daily_activity [⟨"2025-05-14", "ubuntu-server-1", 1, 0, 2048, 0⟩]
      "2025-05-14" "ubuntu-server-1" "uploaded" 7 =
      [⟨"2025-05-14", "ubuntu-server-1", 1, 0, 2048, 0⟩] :=
  c10_bump_other_action_noop _ "2025-05-14" "ubuntu-server-1" "uploaded" 7
    (by decide) (by decide)

end SftpMonitor
